import Mathlib

/-!
Verification of the finalization subsystem (src/runner/reconcile/finalize.rs)
of the roperator reconciliation engine.

The Rust source is embedded shallowly:

* JSON documents become the inductive `Json` (arrays and objects are encoded
  with explicit spine constructors so that equality is decidable).
* The effectful pipeline (`handle_finalize`, `get_finalize_result`,
  `delete_children`, `remove_finalizer`) is embedded as pure functions that
  return the list of observable events (delete requests, patches, handler
  invocation, fixed delays, the completion message, log lines) together with
  an `Outcome` mirroring `Result<(), UpdateError>` plus the `expect` panic.
* The behaviour of the external world (the client's responses and the
  user-supplied handler) is an explicit oracle `Env`.

Definitions whose Rust source lives outside the embedded file (the resource
accessors, the patch payloads, `update_status_if_different`) are modelled from
the specification and carry a doc comment saying so.
-/

namespace Roperator

/-- JSON trees.  Arrays and objects are encoded with explicit spine
constructors (`arrNil`/`arrCons`, `objNil`/`objCons`) instead of nested
lists, which keeps equality decidable by derivation; the builders
`Json.arr` and `Json.obj` below convert from lists. -/
inductive Json where
  | null
  | bool (b : Bool)
  | num (n : Int)
  | str (s : String)
  | arrNil
  | arrCons (head tail : Json)
  | objNil
  | objCons (key : String) (value rest : Json)
  deriving DecidableEq, Repr

/-- Build a JSON array from a list of elements. -/
def Json.arr : List Json → Json
  | [] => .arrNil
  | x :: xs => .arrCons x (Json.arr xs)

/-- Build a JSON object from a list of key/value pairs. -/
def Json.obj : List (String × Json) → Json
  | [] => .objNil
  | (k, v) :: rest => .objCons k v (Json.obj rest)

/-- Look up a key in a JSON object (first match), `none` on non-objects. -/
def Json.objGet (key : String) : Json → Option Json
  | .objCons k v rest => if k = key then some v else rest.objGet key
  | _ => none

/-- JSON-pointer descent, mirroring `Value::pointer`; the embedded code only
uses object-key segments (the paths never index into arrays). -/
def Json.pointer : List String → Json → Option Json
  | [], j => some j
  | seg :: rest, j =>
    match j.objGet seg with
    | some v => Json.pointer rest v
    | none => none

/-- Mirrors `Value::as_array`: the element list when the value is a
well-formed array spine, `none` otherwise. -/
def Json.as_array : Json → Option (List Json)
  | .arrNil => some []
  | .arrCons x rest => (Json.as_array rest).map (fun xs => x :: xs)
  | _ => none

/-- Mirrors `Value::as_str`. -/
def Json.as_str : Json → Option String
  | .str s => some s
  | _ => none

/-- Mirrors `Value::as_i64`. -/
def Json.as_num : Json → Option Int
  | .num n => some n
  | _ => none

theorem Json.as_array_arr (xs : List Json) : (Json.arr xs).as_array = some xs := by
  induction xs with
  | nil => rfl
  | cons x xs ih => simp [Json.arr, Json.as_array, ih]

/-- Mirrors `Iterator::position`: index of the first element satisfying the
predicate. -/
def position {α : Type} (p : α → Bool) : List α → Option Nat
  | [] => none
  | x :: xs => if p x then some 0 else (position p xs).map (fun i => i + 1)

theorem position_eq_none_iff {α : Type} (p : α → Bool) (l : List α) :
    position p l = none ↔ ∀ x ∈ l, p x = false := by
  induction l with
  | nil => simp [position]
  | cons x xs ih =>
    rcases hx : p x with _ | _
    · simp [position, hx, Option.map_eq_none', ih]
    · simp [position, hx]

theorem position_eq_some_iff {α : Type} (p : α → Bool) (l : List α) (i : Nat) :
    position p l = some i ↔
      ((∃ x, l[i]? = some x ∧ p x = true) ∧
        ∀ j, j < i → ∀ y, l[j]? = some y → p y = false) := by
  induction l generalizing i with
  | nil => simp [position]
  | cons x xs ih =>
    rcases hx : p x with _ | _
    · cases i with
      | zero =>
        simp only [position, hx, if_false, Bool.false_eq_true]
        constructor
        · intro h
          rcases Option.map_eq_some'.mp h with ⟨j, -, hj⟩
          omega
        · rintro ⟨⟨y, hy, hpy⟩, -⟩
          simp only [List.getElem?_cons_zero, Option.some.injEq] at hy
          subst hy
          rw [hx] at hpy; cases hpy
      | succ i =>
        simp only [position, hx, if_false, Bool.false_eq_true]
        constructor
        · intro h
          rcases Option.map_eq_some'.mp h with ⟨j, hj, hji⟩
          have hj' : j = i := by omega
          subst hj'
          rcases (ih j).mp hj with ⟨hmatch, hfirst⟩
          refine ⟨by simpa using hmatch, ?_⟩
          intro k hk y hy
          cases k with
          | zero =>
            simp only [List.getElem?_cons_zero, Option.some.injEq] at hy
            subst hy; exact hx
          | succ k =>
            simp only [List.getElem?_cons_succ] at hy
            exact hfirst k (by omega) y hy
        · rintro ⟨hmatch, hfirst⟩
          have hxs : position p xs = some i := by
            refine (ih i).mpr ⟨by simpa using hmatch, ?_⟩
            intro k hk y hy
            exact hfirst (k + 1) (by omega) y (by simpa using hy)
          simp [hxs]
    · cases i with
      | zero => simp [position, hx]
      | succ i =>
        simp only [position, hx, if_true]
        constructor
        · intro h; cases h
        · rintro ⟨-, hfirst⟩
          have h0 := hfirst 0 (Nat.succ_pos i) x (by simp)
          rw [hx] at h0; cases h0

/-- Modelled from the spec: the object identifier type (`ObjectIdRef`) lives
outside the embedded file; §6 describes it as namespace-equivalent plus
name-equivalent components. -/
structure ObjectId where
  ns : String
  name : String
  deriving DecidableEq, Repr

/-- Modelled from the spec: the child type reference (`K8sTypeRef`) lives
outside the embedded file; it is the group/kind-equivalent identity read off
a child resource. -/
structure K8sTypeRef where
  api_version : String
  kind : String
  deriving DecidableEq, Repr

/-- Modelled from the spec: the full type descriptor (`K8sType`) lives
outside the embedded file; §6 calls it the full type descriptor needed by
the client to target the right resource collection. -/
structure K8sType where
  api_version : String
  kind : String
  plural_kind : String
  deriving DecidableEq, Repr

/-- A resource is a wrapper around its JSON document, as in the source
(`K8sResource` derefs to a `Value`). -/
structure K8sResource where
  raw : Json
  deriving DecidableEq, Repr

/-- Mirrors `AsRef<Value>` on `K8sResource`. -/
def K8sResource.as_ref (r : K8sResource) : Json := r.raw

/-- Modelled from the spec: `K8sResource::get_object_id` lives outside the
embedded file; §6 says identity is namespace plus name. -/
def K8sResource.get_object_id (r : K8sResource) : ObjectId :=
  ObjectId.mk
    (((r.raw.pointer ["metadata", "namespace"]).bind Json.as_str).getD ("" : String))
    (((r.raw.pointer ["metadata", "name"]).bind Json.as_str).getD ("" : String))

/-- Modelled from the spec: `K8sResource::is_deletion_timestamp_set` lives
outside the embedded file; §3 gives each resource an optional deletion
timestamp used as an idempotency guard. -/
def K8sResource.is_deletion_timestamp_set (r : K8sResource) : Bool :=
  (r.raw.pointer ["metadata", "deletionTimestamp"]).isSome

/-- Modelled from the spec: `K8sResource::get_type_ref` lives outside the
embedded file; it reads the group/kind-equivalent identity of the resource. -/
def K8sResource.get_type_ref (r : K8sResource) : K8sTypeRef :=
  K8sTypeRef.mk
    (((r.raw.pointer ["apiVersion"]).bind Json.as_str).getD ("" : String))
    (((r.raw.pointer ["kind"]).bind Json.as_str).getD ("" : String))

/-- Modelled from the spec: `K8sResource::generation` lives outside the
embedded file; §3 gives each resource an integer generation counter. -/
def K8sResource.generation (r : K8sResource) : Option Int :=
  (r.raw.pointer ["metadata", "generation"]).bind Json.as_num

/-- Modelled from the spec: `K8sResource::get_resource_version` lives outside
the embedded file; §3 gives each resource an uninterpreted resource-version token. -/
def K8sResource.get_resource_version (r : K8sResource) : String :=
  (((r.raw.pointer ["metadata", "resourceVersion"]).bind Json.as_str).getD ("" : String))

/-- Modelled from the spec: `K8sResource::status` lives outside the embedded
file; §3 gives each resource an uninterpreted, optional status document. -/
def K8sResource.status (r : K8sResource) : Option Json :=
  r.raw.pointer ["status"]

/-- Modelled from the spec: `RuntimeConfig` is constructed outside the
embedded file; §3 says it holds the operator's identity string, the parent
type identity, and a registry mapping child type name to full type identity. -/
structure RuntimeConfig where
  operator_name : String
  parent_type : K8sType
  child_types : List (K8sTypeRef × K8sType)

/-- Mirrors `RuntimeConfig::type_for`: registry lookup for a child type. -/
def RuntimeConfig.type_for (cfg : RuntimeConfig) (t : K8sTypeRef) : Option K8sType :=
  ((cfg.child_types.find? (fun p => p.1 = t)).map (fun p => p.2))

/-- The immutable snapshot handed to one reconciliation attempt (§3). -/
structure SyncRequest where
  parent : K8sResource
  children : List K8sResource
  deriving DecidableEq, Repr

/-- Modelled from the spec: `FinalizeResponse` is declared outside the
embedded file; §3 gives it an optional new status document and the
`finalized` verdict. -/
structure FinalizeResponse where
  status : Option Json
  finalized : Bool
  deriving DecidableEq, Repr

/-- Error kinds of `UpdateError` (§7 taxonomy); the type itself is declared
outside the embedded file. -/
inductive UpdateError where
  | conflict
  | transportFailure (code : Nat)
  | notFound
  deriving DecidableEq, Repr

/-- Modelled from the spec: the informer's `EventType` is declared outside
the embedded file; §6 names only the completion kind used here, so the
informer's remaining kinds are collapsed into one unnamed alternative. -/
inductive EventType where
  | updateOperationComplete
  | otherInformerEvent
  deriving DecidableEq, Repr

/-- The completion event sent to the external dispatcher (§3). -/
structure ResourceMessage where
  event_type : EventType
  resource_type : K8sType
  resource_id : ObjectId
  index_key : Option String
  deriving DecidableEq, Repr

/-- The bundle destructured at the top of `handle_finalize`.  The channel
sender, the user handler and the client are not data here: their behaviour
is the oracle `Env` below, and their use shows up in the event trace. -/
structure SyncHandler where
  request : SyncRequest
  runtime_config : RuntimeConfig
  parent_index_key : String

/-- Modelled from the spec: `Patch` construction lives outside the embedded
file; §6 says a remove-marker patch removes exactly the operator's identity
string and a status patch replaces the status wholesale. -/
inductive Patch where
  | remove_finalizer (finalizer_name : String)
  | replace_status (new_status : Option Json)
  deriving DecidableEq, Repr

/-- Modelled from the spec: the effect of a remove-marker patch on the
marker list (§6: it removes exactly the operator's identity string). -/
def apply_remove_finalizer (finalizers : List String) (finalizer_name : String) : List String :=
  finalizers.filter (fun n => n ≠ finalizer_name)

/-- Result of one pipeline stage: `Result<(), UpdateError>` plus the
`expect`-panic of `delete_children` (which aborts the task). -/
inductive Outcome where
  | ok
  | err (e : UpdateError)
  | panicked
  deriving DecidableEq, Repr

/-- The oracle for the external world: the client's answer to each delete
and patch request, and the user handler's `finalize` response. -/
structure Env where
  delete_result : K8sType → ObjectId → Except UpdateError Unit
  patch_result : K8sType → ObjectId → Patch → Except UpdateError Unit
  finalize : SyncRequest → FinalizeResponse

/-- Observable events of one finalize pass, in program order. -/
inductive Event where
  | delete_req (ty : K8sType) (id : ObjectId)
  | patch_req (ty : K8sType) (id : ObjectId) (p : Patch)
  | handler_invoked (req : SyncRequest)
  | status_call (id : ObjectId) (resource_version : String) (gen : Option Int)
      (old_status new_status : Option Json)
  | delay (secs : Nat)
  | completion_sent (msg : ResourceMessage)
  | log_skip_child (ty : K8sTypeRef) (id : ObjectId)
  | log_deleted_child (ty : K8sTypeRef) (id : ObjectId)
  | log_finalized (id : ObjectId)
  | log_not_finalized (id : ObjectId)
  | log_finalize_ok (id : ObjectId)
  | log_finalize_err (id : ObjectId) (e : UpdateError)
  deriving DecidableEq, Repr

/-- The fixed error-path delay (`Duration::from_secs(5)` in `handle_finalize`). -/
def error_delay_secs : Nat := 5

/-- The fixed not-finalized delay (`Duration::from_secs(3)` in
`get_finalize_result`). -/
def not_finalized_delay_secs : Nat := 3

/-- Embeds `get_index_of_parent_finalizer`: position of the operator's
marker in the parent's `/metadata/finalizers` array, if any. -/
def get_index_of_parent_finalizer (req : SyncRequest) (runtime_config : RuntimeConfig) :
    Option Nat :=
  let finalizer_name := runtime_config.operator_name
  ((req.parent.as_ref.pointer ["metadata", "finalizers"]).bind Json.as_array).bind
    (fun array => position (fun name => name.as_str == some finalizer_name) array)

/-- Embeds `delete_children`: walk the children in order; skip (with a log)
any child whose deletion timestamp is set, panic when the registry lacks the
child's type, otherwise issue one delete request and stop at the first
failure. -/
def delete_children (env : Env) (runtime_config : RuntimeConfig) :
    List K8sResource → List Event × Outcome
  | [] => ([], .ok)
  | child :: rest =>
    let child_type := child.get_type_ref
    let child_id := child.get_object_id
    if child.is_deletion_timestamp_set then
      let step := delete_children env runtime_config rest
      (.log_skip_child child_type child_id :: step.1, step.2)
    else
      match runtime_config.type_for child_type with
      | none => ([], .panicked)
      | some type_ref =>
        match env.delete_result type_ref child_id with
        | .error e => ([.delete_req type_ref child_id], .err e)
        | .ok _ =>
          let step := delete_children env runtime_config rest
          (.delete_req type_ref child_id :: .log_deleted_child child_type child_id :: step.1,
            step.2)

/-- Modelled from the spec: `update_status_if_different` (the
StatusReconciler, §4.4) is defined outside the embedded file; given the
parent identity, resource-version token, generation, prior status and
candidate status, it applies a wholesale status patch only when the
candidate differs from the prior status.  The `status_call` event records
the arguments the caller handed over. -/
def update_status_if_different (env : Env) (parent_id : ObjectId)
    (parent_resource_version : String) (runtime_config : RuntimeConfig)
    (current_gen : Option Int) (old_status new_status : Option Json) :
    List Event × Outcome :=
  let call_ev := Event.status_call parent_id parent_resource_version current_gen
    old_status new_status
  if new_status = old_status then ([call_ev], .ok)
  else
    let patch := Patch.replace_status new_status
    match env.patch_result runtime_config.parent_type parent_id patch with
    | .ok _ => ([call_ev, .patch_req runtime_config.parent_type parent_id patch], .ok)
    | .error e => ([call_ev, .patch_req runtime_config.parent_type parent_id patch], .err e)

/-- Embeds `remove_finalizer`: send one patch removing the operator's own
marker from the parent. -/
def remove_finalizer (env : Env) (runtime_config : RuntimeConfig) (parent : K8sResource) :
    List Event × Outcome :=
  let id := parent.get_object_id
  let k8s_type := runtime_config.parent_type
  let patch := Patch.remove_finalizer runtime_config.operator_name
  match env.patch_result k8s_type id patch with
  | .ok _ => ([.patch_req k8s_type id patch], .ok)
  | .error e => ([.patch_req k8s_type id patch], .err e)

/-- Embeds `get_finalize_result`: children are always deleted first; only
when the operator's marker is present does the pass invoke the handler,
reconcile status, and either remove the marker (`finalized = true`) or wait
the not-finalized delay (`finalized = false`). -/
def get_finalize_result (env : Env) (request : SyncRequest)
    (runtime_config : RuntimeConfig) : List Event × Outcome :=
  let parent_finalizer_index := get_index_of_parent_finalizer request runtime_config
  match delete_children env runtime_config request.children with
  | (t1, .err e) => (t1, .err e)
  | (t1, .panicked) => (t1, .panicked)
  | (t1, .ok) =>
    if parent_finalizer_index.isSome then
      let response := env.finalize request
      let current_gen := request.parent.generation
      let parent_resource_version := request.parent.get_resource_version
      let old_status := request.parent.status
      let parent_id := request.parent.get_object_id
      match update_status_if_different env parent_id parent_resource_version
          runtime_config current_gen old_status response.status with
      | (t2, .err e) => (t1 ++ Event.handler_invoked request :: t2, .err e)
      | (t2, .panicked) => (t1 ++ Event.handler_invoked request :: t2, .panicked)
      | (t2, .ok) =>
        if response.finalized then
          let step := remove_finalizer env runtime_config request.parent
          (t1 ++ Event.handler_invoked request :: t2 ++
            Event.log_finalized parent_id :: step.1, step.2)
        else
          (t1 ++ Event.handler_invoked request :: t2 ++
            [Event.log_not_finalized parent_id, Event.delay not_finalized_delay_secs], .ok)
    else (t1, .ok)

/-- Embeds `handle_finalize`: run the pass, convert an error into the fixed
error delay, and send exactly one completion message; the `expect` panic in
`delete_children` aborts the task before the completion send. -/
def handle_finalize (env : Env) (handler : SyncHandler) : List Event :=
  let parent_id := handler.request.parent.get_object_id
  let parent_type := handler.runtime_config.parent_type
  let message := ResourceMessage.mk EventType.updateOperationComplete parent_type
    parent_id (some handler.parent_index_key)
  match get_finalize_result env handler.request handler.runtime_config with
  | (t, .ok) =>
      t ++ [Event.log_finalize_ok parent_id, Event.completion_sent message]
  | (t, .err e) =>
      t ++ [Event.log_finalize_err parent_id e, Event.delay error_delay_secs,
        Event.completion_sent message]
  | (t, .panicked) => t

/-- The event is a child-delete request. -/
def Event.is_delete : Event → Bool
  | .delete_req _ _ => true
  | _ => false

/-- The event is a patch request (status replacement or marker removal). -/
def Event.is_patch : Event → Bool
  | .patch_req _ _ _ => true
  | _ => false

/-- The event is a marker-removal patch request. -/
def Event.is_removal_patch : Event → Bool
  | .patch_req _ _ (.remove_finalizer _) => true
  | _ => false

/-- The event is a status-replacement patch request. -/
def Event.is_status_patch : Event → Bool
  | .patch_req _ _ (.replace_status _) => true
  | _ => false

/-- The event is an invocation of the user handler. -/
def Event.is_handler : Event → Bool
  | .handler_invoked _ => true
  | _ => false

/-- The event is a call of the status reconciler. -/
def Event.is_status_call : Event → Bool
  | .status_call _ _ _ _ _ => true
  | _ => false

/-- The event is a completion-message send. -/
def Event.is_completion : Event → Bool
  | .completion_sent _ => true
  | _ => false

/-- The event is one of the fixed delays. -/
def Event.is_delay : Event → Bool
  | .delay _ => true
  | _ => false

/-- The event kinds that `delete_children` can emit. -/
def Event.is_child_step : Event → Bool
  | .delete_req _ _ => true
  | .log_skip_child _ _ => true
  | .log_deleted_child _ _ => true
  | _ => false

/-- All completion messages sent in a trace. -/
def completions (t : List Event) : List ResourceMessage :=
  t.filterMap (fun e => match e with
    | .completion_sent m => some m
    | _ => none)

/-- The ids targeted by the delete requests of a trace. -/
def delete_targets (t : List Event) : List ObjectId :=
  t.filterMap (fun e => match e with
    | .delete_req _ id => some id
    | _ => none)

/-- The delays awaited in a trace, in seconds and in order. -/
def delays (t : List Event) : List Nat :=
  t.filterMap (fun e => match e with
    | .delay s => some s
    | _ => none)

theorem delete_children_events (env : Env) (cfg : RuntimeConfig) (cs : List K8sResource) :
    ∀ e ∈ (delete_children env cfg cs).1, e.is_child_step = true := by
  induction cs with
  | nil => simp [delete_children]
  | cons c rest ih =>
    intro e he
    rcases hts : c.is_deletion_timestamp_set with _ | _
    · rcases hty : cfg.type_for c.get_type_ref with _ | ty
      · simp [delete_children, hts, hty] at he
      · rcases hdel : env.delete_result ty c.get_object_id with e' | u
        · simp only [delete_children, hts, hty, hdel, Bool.false_eq_true, if_false,
            List.mem_singleton] at he
          subst he; rfl
        · simp only [delete_children, hts, hty, hdel, Bool.false_eq_true, if_false,
            List.mem_cons] at he
          rcases he with rfl | rfl | he
          · rfl
          · rfl
          · exact ih e he
    · simp only [delete_children, hts, if_true, List.mem_cons] at he
      rcases he with rfl | he
      · rfl
      · exact ih e he

theorem delete_children_targets (env : Env) (cfg : RuntimeConfig) (cs : List K8sResource) :
    ∀ id ∈ delete_targets (delete_children env cfg cs).1,
      id ∈ cs.map K8sResource.get_object_id := by
  induction cs with
  | nil => simp [delete_children, delete_targets]
  | cons c rest ih =>
    intro id hid
    rcases hts : c.is_deletion_timestamp_set with _ | _
    · rcases hty : cfg.type_for c.get_type_ref with _ | ty
      · simp [delete_children, hts, hty, delete_targets] at hid
      · rcases hdel : env.delete_result ty c.get_object_id with e' | u
        · simp only [delete_children, hts, hty, hdel, Bool.false_eq_true, if_false,
            delete_targets, List.filterMap_cons, List.filterMap_nil] at hid
          simp only [List.mem_singleton] at hid
          subst hid
          exact List.mem_cons_self _ _
        · simp only [delete_children, hts, hty, hdel, Bool.false_eq_true, if_false,
            delete_targets, List.filterMap_cons] at hid
          simp only [List.mem_cons] at hid
          rcases hid with rfl | hid
          · exact List.mem_cons_self _ _
          · exact List.mem_cons_of_mem _ (ih id hid)
    · simp only [delete_children, hts, if_true, delete_targets, List.filterMap_cons] at hid
      exact List.mem_cons_of_mem _ (ih id hid)

theorem delete_children_append_of_ok (env : Env) (cfg : RuntimeConfig)
    (pre rest : List K8sResource) (hpre : (delete_children env cfg pre).2 = .ok) :
    delete_children env cfg (pre ++ rest) =
      ((delete_children env cfg pre).1 ++ (delete_children env cfg rest).1,
        (delete_children env cfg rest).2) := by
  induction pre with
  | nil => simp [delete_children]
  | cons c pre ih =>
    rcases hts : c.is_deletion_timestamp_set with _ | _
    · rcases hty : cfg.type_for c.get_type_ref with _ | ty
      · simp [delete_children, hts, hty] at hpre
      · rcases hdel : env.delete_result ty c.get_object_id with e' | u
        · simp [delete_children, hts, hty, hdel] at hpre
        · simp only [delete_children, hts, hty, hdel, Bool.false_eq_true, if_false] at hpre ⊢
          simp only [List.cons_append, delete_children, hts, hty, hdel, Bool.false_eq_true,
            if_false, ih hpre]
          simp only [List.append_eq]
          rw [ih hpre]
    · simp only [delete_children, hts, if_true] at hpre ⊢
      simp only [List.cons_append, delete_children, hts, if_true, ih hpre]
      simp only [List.append_eq]
      rw [ih hpre]

theorem child_step_disjoint (e : Event) (h : e.is_child_step = true) :
    e.is_handler = false ∧ e.is_status_call = false ∧ e.is_patch = false ∧
      e.is_completion = false ∧ e.is_delay = false ∧
      e.is_removal_patch = false ∧ e.is_status_patch = false := by
  cases e <;> simp_all [Event.is_child_step, Event.is_handler, Event.is_status_call,
    Event.is_patch, Event.is_completion, Event.is_delay, Event.is_removal_patch,
    Event.is_status_patch]

theorem delete_children_countP_zero (env : Env) (cfg : RuntimeConfig)
    (cs : List K8sResource) (q : Event → Bool)
    (hq : ∀ e : Event, e.is_child_step = true → q e = false) :
    ((delete_children env cfg cs).1).countP q = 0 := by
  refine List.countP_eq_zero.mpr ?_
  intro e he
  rw [hq e (delete_children_events env cfg cs e he)]
  simp

theorem completions_eq_nil (t : List Event) (h : t.countP Event.is_completion = 0) :
    completions t = [] := by
  refine List.filterMap_eq_nil_iff.mpr ?_
  intro e he
  have h' : ¬ Event.is_completion e = true := (List.countP_eq_zero.mp h) e he
  cases e <;> simp_all [Event.is_completion]

theorem delays_eq_nil (t : List Event) (h : t.countP Event.is_delay = 0) :
    delays t = [] := by
  refine List.filterMap_eq_nil_iff.mpr ?_
  intro e he
  have h' : ¬ Event.is_delay e = true := (List.countP_eq_zero.mp h) e he
  cases e <;> simp_all [Event.is_delay]

theorem update_status_trace (env : Env) (pid : ObjectId) (rv : String)
    (cfg : RuntimeConfig) (gen : Option Int) (old_status new_status : Option Json) :
    (update_status_if_different env pid rv cfg gen old_status new_status).1 =
      Event.status_call pid rv gen old_status new_status ::
        (if new_status = old_status then ([] : List Event)
         else [Event.patch_req cfg.parent_type pid (Patch.replace_status new_status)]) := by
  by_cases h : new_status = old_status
  · simp [update_status_if_different, h]
  · rcases hp : env.patch_result cfg.parent_type pid (Patch.replace_status new_status)
      with e | u <;>
      simp [update_status_if_different, h, hp]

theorem remove_finalizer_trace (env : Env) (cfg : RuntimeConfig) (parent : K8sResource) :
    (remove_finalizer env cfg parent).1 =
      [Event.patch_req cfg.parent_type parent.get_object_id
        (Patch.remove_finalizer cfg.operator_name)] := by
  rcases hp : env.patch_result cfg.parent_type parent.get_object_id
      (Patch.remove_finalizer cfg.operator_name) with e | u <;>
    simp [remove_finalizer, hp]

theorem gfr_of_delete_err (env : Env) (req : SyncRequest) (cfg : RuntimeConfig)
    (t1 : List Event) (e : UpdateError)
    (hdc : delete_children env cfg req.children = (t1, .err e)) :
    get_finalize_result env req cfg = (t1, .err e) := by
  simp [get_finalize_result, hdc]

theorem gfr_of_delete_panic (env : Env) (req : SyncRequest) (cfg : RuntimeConfig)
    (t1 : List Event)
    (hdc : delete_children env cfg req.children = (t1, .panicked)) :
    get_finalize_result env req cfg = (t1, .panicked) := by
  simp [get_finalize_result, hdc]

theorem gfr_marker_absent (env : Env) (req : SyncRequest) (cfg : RuntimeConfig)
    (t1 : List Event)
    (hdc : delete_children env cfg req.children = (t1, .ok))
    (hidx : get_index_of_parent_finalizer req cfg = none) :
    get_finalize_result env req cfg = (t1, .ok) := by
  simp [get_finalize_result, hdc, hidx]

theorem gfr_status_err (env : Env) (req : SyncRequest) (cfg : RuntimeConfig)
    (t1 t2 : List Event) (e : UpdateError)
    (hdc : delete_children env cfg req.children = (t1, .ok))
    (hidx : (get_index_of_parent_finalizer req cfg).isSome = true)
    (hus : update_status_if_different env req.parent.get_object_id
        req.parent.get_resource_version cfg req.parent.generation req.parent.status
        (env.finalize req).status = (t2, .err e)) :
    get_finalize_result env req cfg = (t1 ++ Event.handler_invoked req :: t2, .err e) := by
  simp [get_finalize_result, hdc, hidx, hus]

theorem gfr_not_finalized (env : Env) (req : SyncRequest) (cfg : RuntimeConfig)
    (t1 t2 : List Event)
    (hdc : delete_children env cfg req.children = (t1, .ok))
    (hidx : (get_index_of_parent_finalizer req cfg).isSome = true)
    (hus : update_status_if_different env req.parent.get_object_id
        req.parent.get_resource_version cfg req.parent.generation req.parent.status
        (env.finalize req).status = (t2, .ok))
    (hfin : (env.finalize req).finalized = false) :
    get_finalize_result env req cfg =
      (t1 ++ Event.handler_invoked req :: t2 ++
        [Event.log_not_finalized req.parent.get_object_id,
          Event.delay not_finalized_delay_secs], .ok) := by
  simp [get_finalize_result, hdc, hidx, hus, hfin]

theorem gfr_finalized (env : Env) (req : SyncRequest) (cfg : RuntimeConfig)
    (t1 t2 : List Event)
    (hdc : delete_children env cfg req.children = (t1, .ok))
    (hidx : (get_index_of_parent_finalizer req cfg).isSome = true)
    (hus : update_status_if_different env req.parent.get_object_id
        req.parent.get_resource_version cfg req.parent.generation req.parent.status
        (env.finalize req).status = (t2, .ok))
    (hfin : (env.finalize req).finalized = true) :
    get_finalize_result env req cfg =
      (t1 ++ Event.handler_invoked req :: t2 ++
        Event.log_finalized req.parent.get_object_id ::
          (remove_finalizer env cfg req.parent).1,
        (remove_finalizer env cfg req.parent).2) := by
  simp [get_finalize_result, hdc, hidx, hus, hfin]

/-- The completion message of a pass over the given handler bundle. -/
def completion_message (handler : SyncHandler) : ResourceMessage :=
  ResourceMessage.mk EventType.updateOperationComplete handler.runtime_config.parent_type
    handler.request.parent.get_object_id (some handler.parent_index_key)

theorem handle_of_ok (env : Env) (handler : SyncHandler) (t : List Event)
    (h : get_finalize_result env handler.request handler.runtime_config = (t, .ok)) :
    handle_finalize env handler =
      t ++ [Event.log_finalize_ok handler.request.parent.get_object_id,
        Event.completion_sent (completion_message handler)] := by
  simp [handle_finalize, h, completion_message]

theorem handle_of_err (env : Env) (handler : SyncHandler) (t : List Event) (e : UpdateError)
    (h : get_finalize_result env handler.request handler.runtime_config = (t, .err e)) :
    handle_finalize env handler =
      t ++ [Event.log_finalize_err handler.request.parent.get_object_id e,
        Event.delay error_delay_secs,
        Event.completion_sent (completion_message handler)] := by
  simp [handle_finalize, h, completion_message]

theorem handle_of_panic (env : Env) (handler : SyncHandler) (t : List Event)
    (h : get_finalize_result env handler.request handler.runtime_config = (t, .panicked)) :
    handle_finalize env handler = t := by
  simp [handle_finalize, h]

/-- The event kinds that `update_status_if_different` can emit. -/
def Event.is_status_step : Event → Bool
  | .status_call _ _ _ _ _ => true
  | .patch_req _ _ (.replace_status _) => true
  | _ => false

theorem status_step_no (e : Event) (h : e.is_status_step = true) :
    e.is_handler = false ∧ e.is_delete = false ∧ e.is_completion = false ∧
      e.is_delay = false ∧ e.is_removal_patch = false := by
  cases e with
  | patch_req ty id p =>
    cases p <;> simp_all [Event.is_status_step, Event.is_handler, Event.is_delete,
      Event.is_completion, Event.is_delay, Event.is_removal_patch]
  | _ =>
    simp_all [Event.is_status_step, Event.is_handler, Event.is_delete,
      Event.is_completion, Event.is_delay, Event.is_removal_patch]

theorem update_status_events (env : Env) (pid : ObjectId) (rv : String)
    (cfg : RuntimeConfig) (gen : Option Int) (old_status new_status : Option Json) :
    ∀ e ∈ (update_status_if_different env pid rv cfg gen old_status new_status).1,
      e.is_status_step = true := by
  rw [update_status_trace]
  intro e he
  by_cases h : new_status = old_status
  · simp only [h, if_true, List.mem_singleton] at he
    subst he; rfl
  · simp only [h, if_false, List.mem_cons, List.mem_singleton, List.not_mem_nil,
      or_false] at he
    rcases he with rfl | rfl
    · rfl
    · rfl

theorem update_status_countP_zero (env : Env) (pid : ObjectId) (rv : String)
    (cfg : RuntimeConfig) (gen : Option Int) (old_status new_status : Option Json)
    (q : Event → Bool) (hq : ∀ e : Event, e.is_status_step = true → q e = false) :
    ((update_status_if_different env pid rv cfg gen old_status new_status).1).countP q = 0 := by
  refine List.countP_eq_zero.mpr ?_
  intro e he
  rw [hq e (update_status_events env pid rv cfg gen old_status new_status e he)]
  simp

theorem update_status_not_panicked (env : Env) (pid : ObjectId) (rv : String)
    (cfg : RuntimeConfig) (gen : Option Int) (old_status new_status : Option Json) :
    (update_status_if_different env pid rv cfg gen old_status new_status).2 ≠
      Outcome.panicked := by
  by_cases h : new_status = old_status
  · simp [update_status_if_different, h]
  · rcases hp : env.patch_result cfg.parent_type pid (Patch.replace_status new_status)
      with e | u <;>
      simp [update_status_if_different, h, hp]

theorem remove_finalizer_not_panicked (env : Env) (cfg : RuntimeConfig)
    (parent : K8sResource) :
    (remove_finalizer env cfg parent).2 ≠ Outcome.panicked := by
  rcases hp : env.patch_result cfg.parent_type parent.get_object_id
      (Patch.remove_finalizer cfg.operator_name) with e | u <;>
    simp [remove_finalizer, hp]

theorem matcher_iff (op : String) (x : Json) :
    (x.as_str == some op) = true ↔ x = Json.str op := by
  cases x
  case str s => simp [Json.as_str]
  all_goals simp [Json.as_str]

theorem matcher_false_of_ne (op : String) (x : Json) (hx : x ≠ Json.str op) :
    (x.as_str == some op) = false := by
  rcases h : (x.as_str == some op) with _ | _
  · rfl
  · exact absurd ((matcher_iff op x).mp h) hx

theorem delete_children_filter_nil (env : Env) (cfg : RuntimeConfig)
    (cs : List K8sResource) (q : Event → Bool)
    (hq : ∀ e : Event, e.is_child_step = true → q e = false) :
    ((delete_children env cfg cs).1).filter q = [] := by
  refine List.filter_eq_nil_iff.mpr ?_
  intro e he
  rw [hq e (delete_children_events env cfg cs e he)]
  simp

theorem finalize_marker_absent_core (env : Env) (handler : SyncHandler)
    (habs : get_index_of_parent_finalizer handler.request handler.runtime_config = none) :
    get_finalize_result env handler.request handler.runtime_config =
      delete_children env handler.runtime_config handler.request.children ∧
    (handle_finalize env handler).countP Event.is_handler = 0 ∧
    (handle_finalize env handler).countP Event.is_status_call = 0 ∧
    (handle_finalize env handler).countP Event.is_patch = 0 := by
  rcases hdc : delete_children env handler.runtime_config handler.request.children with ⟨t1, r⟩
  have ht1 : ((delete_children env handler.runtime_config handler.request.children).1) = t1 := by
    rw [hdc]
  have hcount : ∀ q : Event → Bool, (∀ e : Event, e.is_child_step = true → q e = false) →
      t1.countP q = 0 := by
    intro q hq
    rw [← ht1]
    exact delete_children_countP_zero _ _ _ q hq
  have h1 := hcount Event.is_handler (fun e h => (child_step_disjoint e h).1)
  have h2 := hcount Event.is_status_call (fun e h => (child_step_disjoint e h).2.1)
  have h3 := hcount Event.is_patch (fun e h => (child_step_disjoint e h).2.2.1)
  cases r with
  | ok =>
    have hg := gfr_marker_absent env handler.request handler.runtime_config t1 hdc habs
    have hh := handle_of_ok env handler t1 hg
    refine ⟨hg, ?_, ?_, ?_⟩ <;>
      simp [hh, List.countP_append, h1, h2, h3, List.countP_cons, Event.is_handler,
        Event.is_status_call, Event.is_patch]
  | err e =>
    have hg := gfr_of_delete_err env handler.request handler.runtime_config t1 e hdc
    have hh := handle_of_err env handler t1 e hg
    refine ⟨hg, ?_, ?_, ?_⟩ <;>
      simp [hh, List.countP_append, h1, h2, h3, List.countP_cons, Event.is_handler,
        Event.is_status_call, Event.is_patch]
  | panicked =>
    have hg := gfr_of_delete_panic env handler.request handler.runtime_config t1 hdc
    have hh := handle_of_panic env handler t1 hg
    exact ⟨hg, by rw [hh]; exact h1, by rw [hh]; exact h2, by rw [hh]; exact h3⟩

theorem gfr_countP_extra (env : Env) (req : SyncRequest) (cfg : RuntimeConfig)
    (q : Event → Bool)
    (hstatus : ∀ e : Event, e.is_status_step = true → q e = false)
    (hhandler : ∀ r, q (Event.handler_invoked r) = false)
    (hlogf : ∀ id, q (Event.log_finalized id) = false)
    (hlognf : ∀ id, q (Event.log_not_finalized id) = false)
    (hdelay : ∀ n, q (Event.delay n) = false)
    (hrem : ∀ ty id s, q (Event.patch_req ty id (Patch.remove_finalizer s)) = false) :
    ((get_finalize_result env req cfg).1).countP q =
      ((delete_children env cfg req.children).1).countP q := by
  rcases hdc : delete_children env cfg req.children with ⟨t1, r⟩
  cases r with
  | err e => rw [gfr_of_delete_err env req cfg t1 e hdc]
  | panicked => rw [gfr_of_delete_panic env req cfg t1 hdc]
  | ok =>
    rcases hi : get_index_of_parent_finalizer req cfg with _ | i
    · rw [gfr_marker_absent env req cfg t1 hdc hi]
    · have hs : (get_index_of_parent_finalizer req cfg).isSome = true := by rw [hi]; rfl
      rcases hus : update_status_if_different env req.parent.get_object_id
          req.parent.get_resource_version cfg req.parent.generation req.parent.status
          (env.finalize req).status with ⟨t2, r2⟩
      have ht2 : t2.countP q = 0 := by
        have := update_status_countP_zero env req.parent.get_object_id
          req.parent.get_resource_version cfg req.parent.generation req.parent.status
          (env.finalize req).status q hstatus
        rw [hus] at this
        exact this
      cases r2 with
      | panicked =>
        have hnp := update_status_not_panicked env req.parent.get_object_id
          req.parent.get_resource_version cfg req.parent.generation req.parent.status
          (env.finalize req).status
        rw [hus] at hnp
        simp at hnp
      | err e =>
        rw [gfr_status_err env req cfg t1 t2 e hdc hs hus]
        simp [List.countP_append, List.countP_cons, hhandler, ht2]
      | ok =>
        rcases hfin : (env.finalize req).finalized with _ | _
        · rw [gfr_not_finalized env req cfg t1 t2 hdc hs hus hfin]
          simp [List.countP_append, List.countP_cons, hhandler, ht2, hlognf, hdelay]
        · rw [gfr_finalized env req cfg t1 t2 hdc hs hus hfin]
          rw [remove_finalizer_trace]
          simp [List.countP_append, List.countP_cons, hhandler, ht2, hlogf, hrem]

theorem handle_countP_extra (env : Env) (handler : SyncHandler) (q : Event → Bool)
    (hok : ∀ id, q (Event.log_finalize_ok id) = false)
    (herr : ∀ id e, q (Event.log_finalize_err id e) = false)
    (hdelay : ∀ n, q (Event.delay n) = false)
    (hcomp : ∀ m, q (Event.completion_sent m) = false) :
    (handle_finalize env handler).countP q =
      ((get_finalize_result env handler.request handler.runtime_config).1).countP q := by
  rcases hg : get_finalize_result env handler.request handler.runtime_config with ⟨t, r⟩
  cases r with
  | ok =>
    rw [handle_of_ok env handler t hg]
    simp [List.countP_append, List.countP_cons, hok, hcomp]
  | err e =>
    rw [handle_of_err env handler t e hg]
    simp [List.countP_append, List.countP_cons, hok, herr, hdelay, hcomp]
  | panicked => rw [handle_of_panic env handler t hg]

theorem handle_present_decomp (env : Env) (handler : SyncHandler)
    (hidx : (get_index_of_parent_finalizer handler.request handler.runtime_config).isSome
      = true)
    (hdcok : (delete_children env handler.runtime_config handler.request.children).2
      = Outcome.ok) :
    ∃ rest : List Event,
      handle_finalize env handler =
        (delete_children env handler.runtime_config handler.request.children).1 ++
          Event.handler_invoked handler.request ::
            (update_status_if_different env handler.request.parent.get_object_id
              handler.request.parent.get_resource_version handler.runtime_config
              handler.request.parent.generation handler.request.parent.status
              (env.finalize handler.request).status).1 ++ rest ∧
      (∀ e ∈ rest, e.is_status_call = false ∧ e.is_status_patch = false ∧
        e.is_handler = false ∧ e.is_delete = false) ∧
      rest.countP Event.is_removal_patch =
        (if (env.finalize handler.request).finalized = true ∧
            (update_status_if_different env handler.request.parent.get_object_id
              handler.request.parent.get_resource_version handler.runtime_config
              handler.request.parent.generation handler.request.parent.status
              (env.finalize handler.request).status).2 = Outcome.ok
          then 1 else 0) ∧
      (∀ e ∈ rest, e.is_removal_patch = true →
        e = Event.patch_req handler.runtime_config.parent_type
          handler.request.parent.get_object_id
          (Patch.remove_finalizer handler.runtime_config.operator_name)) := by
  rcases hdc : delete_children env handler.runtime_config handler.request.children
    with ⟨t1, r⟩
  rw [hdc] at hdcok
  simp only at hdcok
  subst hdcok
  rcases hus : update_status_if_different env handler.request.parent.get_object_id
      handler.request.parent.get_resource_version handler.runtime_config
      handler.request.parent.generation handler.request.parent.status
      (env.finalize handler.request).status with ⟨t2, r2⟩
  cases r2 with
  | panicked =>
    have hnp := update_status_not_panicked env handler.request.parent.get_object_id
      handler.request.parent.get_resource_version handler.runtime_config
      handler.request.parent.generation handler.request.parent.status
      (env.finalize handler.request).status
    rw [hus] at hnp
    simp at hnp
  | err e =>
    have hg := gfr_status_err env handler.request handler.runtime_config t1 t2 e hdc
      hidx hus
    have hh := handle_of_err env handler _ e hg
    refine ⟨[Event.log_finalize_err handler.request.parent.get_object_id e,
      Event.delay error_delay_secs, Event.completion_sent (completion_message handler)],
      ?_, ?_, ?_, ?_⟩
    · simp [hh, List.append_assoc]
    · intro e' he'
      simp only [List.mem_cons, List.not_mem_nil, or_false] at he'
      rcases he' with rfl | rfl | rfl <;> exact ⟨rfl, rfl, rfl, rfl⟩
    · simp [List.countP_cons, Event.is_removal_patch]
    · intro e' he' hrem
      simp only [List.mem_cons, List.not_mem_nil, or_false] at he'
      rcases he' with rfl | rfl | rfl <;> simp [Event.is_removal_patch] at hrem
  | ok =>
    rcases hfin : (env.finalize handler.request).finalized with _ | _
    · have hg := gfr_not_finalized env handler.request handler.runtime_config t1 t2 hdc
        hidx hus hfin
      have hh := handle_of_ok env handler _ hg
      refine ⟨[Event.log_not_finalized handler.request.parent.get_object_id,
        Event.delay not_finalized_delay_secs,
        Event.log_finalize_ok handler.request.parent.get_object_id,
        Event.completion_sent (completion_message handler)], ?_, ?_, ?_, ?_⟩
      · simp [hh, List.append_assoc]
      · intro e' he'
        simp only [List.mem_cons, List.not_mem_nil, or_false] at he'
        rcases he' with rfl | rfl | rfl | rfl <;> exact ⟨rfl, rfl, rfl, rfl⟩
      · simp [List.countP_cons, Event.is_removal_patch]
      · intro e' he' hrem
        simp only [List.mem_cons, List.not_mem_nil, or_false] at he'
        rcases he' with rfl | rfl | rfl | rfl <;> simp [Event.is_removal_patch] at hrem
    · rcases hrf : remove_finalizer env handler.runtime_config handler.request.parent
        with ⟨t3, r3⟩
      have ht3 : t3 = [Event.patch_req handler.runtime_config.parent_type
          handler.request.parent.get_object_id
          (Patch.remove_finalizer handler.runtime_config.operator_name)] := by
        have h := remove_finalizer_trace env handler.runtime_config handler.request.parent
        rw [hrf] at h
        exact h
      subst ht3
      have hg := gfr_finalized env handler.request handler.runtime_config t1 t2 hdc
        hidx hus hfin
      rw [hrf] at hg
      cases r3 with
      | panicked =>
        have hnp := remove_finalizer_not_panicked env handler.runtime_config
          handler.request.parent
        rw [hrf] at hnp
        simp at hnp
      | ok =>
        have hh := handle_of_ok env handler _ hg
        refine ⟨Event.log_finalized handler.request.parent.get_object_id ::
          Event.patch_req handler.runtime_config.parent_type
            handler.request.parent.get_object_id
            (Patch.remove_finalizer handler.runtime_config.operator_name) ::
          [Event.log_finalize_ok handler.request.parent.get_object_id,
           Event.completion_sent (completion_message handler)], ?_, ?_, ?_, ?_⟩
        · simp [hh, List.append_assoc]
        · intro e' he'
          simp only [List.mem_cons, List.not_mem_nil, or_false] at he'
          rcases he' with rfl | rfl | rfl | rfl <;> exact ⟨rfl, rfl, rfl, rfl⟩
        · simp [List.countP_cons, Event.is_removal_patch]
        · intro e' he' hrem
          simp only [List.mem_cons, List.not_mem_nil, or_false] at he'
          rcases he' with rfl | rfl | rfl | rfl
          · simp [Event.is_removal_patch] at hrem
          · rfl
          · simp [Event.is_removal_patch] at hrem
          · simp [Event.is_removal_patch] at hrem
      | err e =>
        have hh := handle_of_err env handler _ e hg
        refine ⟨Event.log_finalized handler.request.parent.get_object_id ::
          Event.patch_req handler.runtime_config.parent_type
            handler.request.parent.get_object_id
            (Patch.remove_finalizer handler.runtime_config.operator_name) ::
          [Event.log_finalize_err handler.request.parent.get_object_id e,
           Event.delay error_delay_secs,
           Event.completion_sent (completion_message handler)], ?_, ?_, ?_, ?_⟩
        · simp [hh, List.append_assoc]
        · intro e' he'
          simp only [List.mem_cons, List.not_mem_nil, or_false] at he'
          rcases he' with rfl | rfl | rfl | rfl | rfl <;> exact ⟨rfl, rfl, rfl, rfl⟩
        · simp [List.countP_cons, Event.is_removal_patch]
        · intro e' he' hrem
          simp only [List.mem_cons, List.not_mem_nil, or_false] at he'
          rcases he' with rfl | rfl | rfl | rfl | rfl
          · simp [Event.is_removal_patch] at hrem
          · rfl
          · simp [Event.is_removal_patch] at hrem
          · simp [Event.is_removal_patch] at hrem
          · simp [Event.is_removal_patch] at hrem

/-! Concrete fixtures used by the witness theorems. -/

/-- Child type reference fixture. -/
def child_type_ref_w : K8sTypeRef := K8sTypeRef.mk ("apps/v1") ("Widget")

/-- Child type descriptor fixture. -/
def child_type_w : K8sType := K8sType.mk ("apps/v1") ("Widget") ("widgets")

/-- Parent type descriptor fixture. -/
def parent_type_w : K8sType := K8sType.mk ("example.com/v1") ("Parent") ("parents")

/-- Runtime configuration fixture: operator identity and one child type. -/
def cfg_w : RuntimeConfig :=
  RuntimeConfig.mk ("my-op") parent_type_w [(child_type_ref_w, child_type_w)]

/-- A child resource document, optionally already marked for deletion. -/
def child_w (name : String) (deleting : Bool) : K8sResource :=
  K8sResource.mk (Json.obj
    [("apiVersion", Json.str ("apps/v1")),
     ("kind", Json.str ("Widget")),
     ("metadata", Json.obj
       (("name", Json.str name) :: ("namespace", Json.str ("ns")) ::
         (if deleting then [("deletionTimestamp", Json.str ("2026-01-01T00:00:00Z"))]
          else [])))])

/-- A parent resource document with the given finalizer entries. -/
def parent_w (fins : List Json) : K8sResource :=
  K8sResource.mk (Json.obj
    [("apiVersion", Json.str ("example.com/v1")),
     ("kind", Json.str ("Parent")),
     ("metadata", Json.obj
       [("name", Json.str ("p1")),
        ("namespace", Json.str ("ns")),
        ("generation", Json.num 3),
        ("resourceVersion", Json.str ("rv1")),
        ("finalizers", Json.arr fins)]),
     ("status", Json.obj [("phase", Json.str ("active"))])])

/-- A parent resource document with no `/metadata/finalizers` field at all. -/
def parent_no_fins_w : K8sResource :=
  K8sResource.mk (Json.obj
    [("apiVersion", Json.str ("example.com/v1")),
     ("kind", Json.str ("Parent")),
     ("metadata", Json.obj
       [("name", Json.str ("p1")),
        ("namespace", Json.str ("ns")),
        ("generation", Json.num 3),
        ("resourceVersion", Json.str ("rv1"))])])

/-- Oracle fixture: everything succeeds; the handler confirms teardown with
a fresh status. -/
def env_ok_w : Env :=
  Env.mk (fun _ _ => Except.ok ()) (fun _ _ _ => Except.ok ())
    (fun _ => FinalizeResponse.mk (some (Json.str ("done"))) true)

/-- Oracle fixture: the delete of the child named c2 fails. -/
def env_fail2_w : Env :=
  Env.mk
    (fun _ id => if id.name = ("c2" : String) then Except.error UpdateError.conflict
      else Except.ok ())
    (fun _ _ _ => Except.ok ())
    (fun _ => FinalizeResponse.mk none true)

/-- Oracle fixture: the handler reports teardown incomplete and keeps the
prior status. -/
def env_notfin_w : Env :=
  Env.mk (fun _ _ => Except.ok ()) (fun _ _ _ => Except.ok ())
    (fun _ => FinalizeResponse.mk (some (Json.obj [("phase", Json.str ("active"))])) false)

/-- Oracle fixture: marker-removal patches fail; everything else succeeds. -/
def env_patchfail_w : Env :=
  Env.mk (fun _ _ => Except.ok ())
    (fun _ _ p => match p with
      | Patch.remove_finalizer _ => Except.error UpdateError.conflict
      | _ => Except.ok ())
    (fun _ => FinalizeResponse.mk (some (Json.str ("done"))) true)

/-- Request fixture: marker present (second position), no children. -/
def req_marker_w : SyncRequest :=
  SyncRequest.mk (parent_w [Json.str ("other-op"), Json.str ("my-op")]) []

/-- Request fixture: marker absent, one live child. -/
def req_absent_w : SyncRequest :=
  SyncRequest.mk (parent_w [Json.str ("other-op")]) [child_w ("c1") false]

/-- Request fixture: marker present, three live children. -/
def req_three_w : SyncRequest :=
  SyncRequest.mk (parent_w [Json.str ("other-op"), Json.str ("my-op")])
    [child_w ("c1") false, child_w ("c2") false, child_w ("c3") false]

/-- Request fixture: marker present, both children already deleting. -/
def req_deleting_w : SyncRequest :=
  SyncRequest.mk (parent_w [Json.str ("my-op")])
    [child_w ("c1") true, child_w ("c2") true]

/-- Request fixture: the parent has no finalizers field at all. -/
def req_nofins_w : SyncRequest :=
  SyncRequest.mk parent_no_fins_w [child_w ("c1") false]

/-- Handler-bundle fixture over a request. -/
def handler_of_w (req : SyncRequest) : SyncHandler :=
  SyncHandler.mk req cfg_w ("index-key-1")

theorem delete_children_all_deleting (env : Env) (cfg : RuntimeConfig)
    (cs : List K8sResource) (hall : ∀ c ∈ cs, c.is_deletion_timestamp_set = true) :
    delete_children env cfg cs =
      (cs.map (fun c => Event.log_skip_child c.get_type_ref c.get_object_id),
        Outcome.ok) := by
  induction cs with
  | nil => rfl
  | cons c rest ih =>
    have hc := hall c (List.mem_cons_self c rest)
    have hrest := ih (fun x hx => hall x (List.mem_cons_of_mem c hx))
    simp [delete_children, hc, hrest]

/-- C1: every finalize pass whose result is one of the three terminal branches
(success, handler-incomplete, error) emits exactly one completion event, and
that event carries `UpdateOperationComplete` and the pass's own `index_key`. -/
theorem C1_exactly_one_completion (env : Env) (handler : SyncHandler)
    (hnp : (get_finalize_result env handler.request handler.runtime_config).2 ≠
      Outcome.panicked) :
    completions (handle_finalize env handler) = [completion_message handler] ∧
    (completion_message handler).event_type = EventType.updateOperationComplete ∧
    (completion_message handler).index_key = some handler.parent_index_key := by
  have hzero : ((get_finalize_result env handler.request handler.runtime_config).1).countP
      Event.is_completion = 0 := by
    rw [gfr_countP_extra env handler.request handler.runtime_config Event.is_completion
      (fun e h => (status_step_no e h).2.2.1)
      (fun r => rfl) (fun id => rfl) (fun id => rfl) (fun n => rfl)
      (fun ty id s => rfl)]
    exact delete_children_countP_zero _ _ _ _
      (fun e h => (child_step_disjoint e h).2.2.2.1)
  rcases hg : get_finalize_result env handler.request handler.runtime_config with ⟨t, r⟩
  rw [hg] at hzero
  simp only at hzero
  have ht : completions t = [] := completions_eq_nil t hzero
  refine ⟨?_, rfl, rfl⟩
  cases r with
  | ok =>
    rw [handle_of_ok env handler t hg]
    simp only [completions] at ht ⊢
    rw [List.filterMap_append, ht]
    rfl
  | err e =>
    rw [handle_of_err env handler t e hg]
    simp only [completions] at ht ⊢
    rw [List.filterMap_append, ht]
    rfl
  | panicked =>
    rw [hg] at hnp
    simp at hnp

/-- C1 witness: a concrete successful pass over three children sends exactly
the one expected completion message. -/
theorem C1_witness :
    ((get_finalize_result env_ok_w (handler_of_w req_three_w).request
        (handler_of_w req_three_w).runtime_config).2 ≠ Outcome.panicked) ∧
    completions (handle_finalize env_ok_w (handler_of_w req_three_w)) =
      [completion_message (handler_of_w req_three_w)] :=
  ⟨by decide, (C1_exactly_one_completion env_ok_w (handler_of_w req_three_w)
    (by decide)).1⟩

/-- C3: when the operator's marker is absent, the pass still equals pure
child teardown, and neither handler invocation, nor a status-reconciler
call, nor any patch happens. -/
theorem C3_marker_absent_teardown_only (env : Env) (handler : SyncHandler)
    (habs : get_index_of_parent_finalizer handler.request handler.runtime_config = none) :
    get_finalize_result env handler.request handler.runtime_config =
      delete_children env handler.runtime_config handler.request.children ∧
    (handle_finalize env handler).countP Event.is_handler = 0 ∧
    (handle_finalize env handler).countP Event.is_status_call = 0 ∧
    (handle_finalize env handler).countP Event.is_patch = 0 :=
  finalize_marker_absent_core env handler habs

/-- C3 witness: a concrete pass whose parent lists only a foreign marker
performs no handler call and no patch. -/
theorem C3_witness :
    (get_index_of_parent_finalizer (handler_of_w req_absent_w).request
      (handler_of_w req_absent_w).runtime_config = none) ∧
    (handle_finalize env_ok_w (handler_of_w req_absent_w)).countP Event.is_patch = 0 :=
  ⟨by decide, (C3_marker_absent_teardown_only env_ok_w (handler_of_w req_absent_w)
    (by decide)).2.2.2⟩

/-- C5: the resolver returns exactly the position of the first entry equal to
the operator's marker string, and `none` exactly when no entry matches. -/
theorem C5_resolver_position (req : SyncRequest) (cfg : RuntimeConfig) (xs : List Json)
    (harr : (req.parent.as_ref.pointer ["metadata", "finalizers"]).bind Json.as_array =
      some xs) :
    (∀ i, get_index_of_parent_finalizer req cfg = some i ↔
      (xs[i]? = some (Json.str cfg.operator_name) ∧
        ∀ j, j < i → xs[j]? ≠ some (Json.str cfg.operator_name))) ∧
    (get_index_of_parent_finalizer req cfg = none ↔
      Json.str cfg.operator_name ∉ xs) := by
  have hget : get_index_of_parent_finalizer req cfg =
      position (fun name => name.as_str == some cfg.operator_name) xs := by
    simp [get_index_of_parent_finalizer, harr]
  constructor
  · intro i
    rw [hget, position_eq_some_iff]
    constructor
    · rintro ⟨⟨x, hx, hpx⟩, hfirst⟩
      have hxeq := (matcher_iff cfg.operator_name x).mp hpx
      subst hxeq
      refine ⟨hx, ?_⟩
      intro j hj hy
      have hfalse := hfirst j hj (Json.str cfg.operator_name) hy
      have htrue := (matcher_iff cfg.operator_name (Json.str cfg.operator_name)).mpr rfl
      rw [htrue] at hfalse
      cases hfalse
    · rintro ⟨hx, hfirst⟩
      refine ⟨⟨Json.str cfg.operator_name, hx, (matcher_iff _ _).mpr rfl⟩, ?_⟩
      intro j hj y hy
      rcases hmy : (y.as_str == some cfg.operator_name) with _ | _
      · rfl
      · have hyeq := (matcher_iff cfg.operator_name y).mp hmy
        subst hyeq
        exact absurd hy (hfirst j hj)
  · rw [hget, position_eq_none_iff]
    constructor
    · intro hall hmem
      have hfalse := hall _ hmem
      have htrue := (matcher_iff cfg.operator_name (Json.str cfg.operator_name)).mpr rfl
      rw [htrue] at hfalse
      cases hfalse
    · intro hnm x hx
      exact matcher_false_of_ne _ _ (fun h => hnm (h ▸ hx))

/-- The finalizer entries of the C5 witness parent. -/
def xs_w : List Json := [Json.str ("other-op"), Json.str ("my-op")]

/-- C5 witness: for markers [other-op, my-op] and identity my-op the resolver
returns index 1. -/
theorem C5_witness :
    ((req_marker_w.parent.as_ref.pointer ["metadata", "finalizers"]).bind Json.as_array =
      some xs_w) ∧
    get_index_of_parent_finalizer req_marker_w cfg_w = some 1 :=
  ⟨by decide, ((C5_resolver_position req_marker_w cfg_w xs_w (by decide)).1 1).mpr
    (by decide)⟩

/-- C7: when every child already carries a deletion timestamp, child teardown
is exactly the skip logs with a success outcome, and the whole pass issues
zero delete requests. -/
theorem C7_all_deleting_no_deletes (env : Env) (handler : SyncHandler)
    (hall : ∀ c ∈ handler.request.children, c.is_deletion_timestamp_set = true) :
    delete_children env handler.runtime_config handler.request.children =
      (handler.request.children.map
        (fun c => Event.log_skip_child c.get_type_ref c.get_object_id), Outcome.ok) ∧
    (handle_finalize env handler).countP Event.is_delete = 0 := by
  have hdc := delete_children_all_deleting env handler.runtime_config
    handler.request.children hall
  refine ⟨hdc, ?_⟩
  rw [handle_countP_extra env handler Event.is_delete (fun id => rfl) (fun id e => rfl)
    (fun n => rfl) (fun m => rfl)]
  rw [gfr_countP_extra env handler.request handler.runtime_config Event.is_delete
    (fun e h => (status_step_no e h).2.1) (fun r => rfl) (fun id => rfl) (fun id => rfl)
    (fun n => rfl) (fun ty id s => rfl)]
  rw [hdc]
  refine List.countP_eq_zero.mpr ?_
  intro e he
  have he' : e ∈ handler.request.children.map
      (fun c => Event.log_skip_child c.get_type_ref c.get_object_id) := he
  rcases List.mem_map.mp he' with ⟨c, -, rfl⟩
  simp [Event.is_delete]

/-- C7 witness: a concrete pass over two already-deleting children issues
zero delete requests. -/
theorem C7_witness :
    (∀ c ∈ req_deleting_w.children, c.is_deletion_timestamp_set = true) ∧
    (handle_finalize env_ok_w (handler_of_w req_deleting_w)).countP Event.is_delete = 0 :=
  ⟨by decide, (C7_all_deleting_no_deletes env_ok_w (handler_of_w req_deleting_w)
    (by decide)).2⟩

/-- C9: a missing finalizers field, a non-array finalizers value, or
entries none of which is the operator's marker string all resolve to `none`,
and the pass then behaves exactly as in the marker-absent case. -/
theorem C9_malformed_finalizers (env : Env) (handler : SyncHandler)
    (hmal : handler.request.parent.as_ref.pointer ["metadata", "finalizers"] = none ∨
      (∃ v, handler.request.parent.as_ref.pointer ["metadata", "finalizers"] = some v ∧
        v.as_array = none) ∨
      (∃ xs, (handler.request.parent.as_ref.pointer ["metadata", "finalizers"]).bind
          Json.as_array = some xs ∧
        ∀ x ∈ xs, x ≠ Json.str handler.runtime_config.operator_name)) :
    get_index_of_parent_finalizer handler.request handler.runtime_config = none ∧
    get_finalize_result env handler.request handler.runtime_config =
      delete_children env handler.runtime_config handler.request.children ∧
    (handle_finalize env handler).countP Event.is_handler = 0 ∧
    (handle_finalize env handler).countP Event.is_status_call = 0 ∧
    (handle_finalize env handler).countP Event.is_patch = 0 := by
  have hnone : get_index_of_parent_finalizer handler.request handler.runtime_config
      = none := by
    rcases hmal with h | ⟨v, hv, hva⟩ | ⟨xs, hxs, hall⟩
    · simp [get_index_of_parent_finalizer, h]
    · simp [get_index_of_parent_finalizer, hv, hva]
    · have hget : get_index_of_parent_finalizer handler.request handler.runtime_config =
          position (fun name =>
            name.as_str == some handler.runtime_config.operator_name) xs := by
        simp [get_index_of_parent_finalizer, hxs]
      rw [hget]
      refine (position_eq_none_iff _ _).mpr ?_
      intro x hx
      exact matcher_false_of_ne _ _ (hall x hx)
  obtain ⟨h1, h2, h3, h4⟩ := finalize_marker_absent_core env handler hnone
  exact ⟨hnone, h1, h2, h3, h4⟩

/-- C9 witness: a concrete parent without any finalizers field resolves to
`none`. -/
theorem C9_witness :
    ((handler_of_w req_nofins_w).request.parent.as_ref.pointer
      ["metadata", "finalizers"] = none) ∧
    get_index_of_parent_finalizer (handler_of_w req_nofins_w).request
      (handler_of_w req_nofins_w).runtime_config = none :=
  ⟨by decide, (C9_malformed_finalizers env_ok_w (handler_of_w req_nofins_w)
    (Or.inl (by decide))).1⟩

theorem delete_targets_append (a b : List Event) :
    delete_targets (a ++ b) = delete_targets a ++ delete_targets b := by
  simp [delete_targets, List.filterMap_append]

theorem completions_append (a b : List Event) :
    completions (a ++ b) = completions a ++ completions b := by
  simp [completions, List.filterMap_append]

theorem delays_append (a b : List Event) :
    delays (a ++ b) = delays a ++ delays b := by
  simp [delays, List.filterMap_append]

theorem removal_imp_patch (e : Event) (h : e.is_removal_patch = true) :
    e.is_patch = true := by
  cases e with
  | patch_req ty id p => rfl
  | _ => simp [Event.is_removal_patch] at h

/-- C2: when the k-th child's delete fails, the pass stops there: the trace is
the successful leading segment plus the one failing delete, then the error log, the
error delay and the completion message; the handler is never invoked, and
every delete request targets that leading segment or the failing child. -/
theorem C2_fail_fast (env : Env) (handler : SyncHandler)
    (pre post : List K8sResource) (c : K8sResource) (ty : K8sType) (e : UpdateError)
    (hchildren : handler.request.children = pre ++ c :: post)
    (hpre : (delete_children env handler.runtime_config pre).2 = Outcome.ok)
    (hts : c.is_deletion_timestamp_set = false)
    (hty : handler.runtime_config.type_for c.get_type_ref = some ty)
    (hdel : env.delete_result ty c.get_object_id = Except.error e) :
    handle_finalize env handler =
      (delete_children env handler.runtime_config pre).1 ++
        [Event.delete_req ty c.get_object_id,
         Event.log_finalize_err handler.request.parent.get_object_id e,
         Event.delay error_delay_secs,
         Event.completion_sent (completion_message handler)] ∧
    (handle_finalize env handler).countP Event.is_handler = 0 ∧
    (∀ id ∈ delete_targets (handle_finalize env handler),
      id ∈ pre.map K8sResource.get_object_id ∨ id = c.get_object_id) := by
  have hsingle : delete_children env handler.runtime_config (c :: post) =
      ([Event.delete_req ty c.get_object_id], Outcome.err e) := by
    simp [delete_children, hts, hty, hdel]
  have hdc : delete_children env handler.runtime_config handler.request.children =
      ((delete_children env handler.runtime_config pre).1 ++
        [Event.delete_req ty c.get_object_id], Outcome.err e) := by
    rw [hchildren,
      delete_children_append_of_ok env handler.runtime_config pre (c :: post) hpre,
      hsingle]
  have hg := gfr_of_delete_err env handler.request handler.runtime_config _ e hdc
  have hh := handle_of_err env handler _ e hg
  have hpre0 : ∀ q : Event → Bool, (∀ e' : Event, e'.is_child_step = true → q e' = false) →
      ((delete_children env handler.runtime_config pre).1).countP q = 0 :=
    fun q hq => delete_children_countP_zero env handler.runtime_config pre q hq
  refine ⟨?_, ?_, ?_⟩
  · rw [hh]
    simp [List.append_assoc]
  · rw [hh]
    simp [List.countP_append, List.countP_cons, Event.is_handler,
      hpre0 Event.is_handler (fun e' h => (child_step_disjoint e' h).1)]
  · intro id hid
    rw [hh, delete_targets_append, delete_targets_append] at hid
    simp only [delete_targets, List.filterMap_cons, List.filterMap_nil] at hid
    simp only [List.mem_append, List.mem_singleton, List.not_mem_nil, or_false,
      List.append_nil] at hid
    rcases hid with h | h
    · exact Or.inl (delete_children_targets env handler.runtime_config pre id h)
    · exact Or.inr h

/-- C2 witness: a concrete pass where the second of three children fails to
delete never invokes the handler. -/
theorem C2_witness :
    ((delete_children env_fail2_w (handler_of_w req_three_w).runtime_config
      [child_w ("c1") false]).2 = Outcome.ok) ∧
    (handle_finalize env_fail2_w (handler_of_w req_three_w)).countP Event.is_handler = 0 :=
  ⟨by decide, (C2_fail_fast env_fail2_w (handler_of_w req_three_w)
    [child_w ("c1") false] [child_w ("c3") false] (child_w ("c2") false)
    child_type_w UpdateError.conflict (by decide) (by decide) (by decide) (by decide)
    (by rfl)).2.1⟩

/-- C6: marker present, handler reports not finalized, status reconciliation
succeeds: no removal patch is issued, the only delay is the not-finalized one
and it immediately precedes the success log and the completion message, and
that delay is strictly shorter than the error delay. -/
theorem C6_not_finalized_throttle (env : Env) (handler : SyncHandler)
    (hidx : (get_index_of_parent_finalizer handler.request handler.runtime_config).isSome
      = true)
    (hdcok : (delete_children env handler.runtime_config handler.request.children).2
      = Outcome.ok)
    (hfin : (env.finalize handler.request).finalized = false)
    (husok : (update_status_if_different env handler.request.parent.get_object_id
      handler.request.parent.get_resource_version handler.runtime_config
      handler.request.parent.generation handler.request.parent.status
      (env.finalize handler.request).status).2 = Outcome.ok) :
    handle_finalize env handler =
      (delete_children env handler.runtime_config handler.request.children).1 ++
        Event.handler_invoked handler.request ::
          (update_status_if_different env handler.request.parent.get_object_id
            handler.request.parent.get_resource_version handler.runtime_config
            handler.request.parent.generation handler.request.parent.status
            (env.finalize handler.request).status).1 ++
          [Event.log_not_finalized handler.request.parent.get_object_id,
           Event.delay not_finalized_delay_secs,
           Event.log_finalize_ok handler.request.parent.get_object_id,
           Event.completion_sent (completion_message handler)] ∧
    (handle_finalize env handler).countP Event.is_removal_patch = 0 ∧
    delays (handle_finalize env handler) = [not_finalized_delay_secs] ∧
    not_finalized_delay_secs < error_delay_secs := by
  rcases hdc : delete_children env handler.runtime_config handler.request.children
    with ⟨t1, r⟩
  rw [hdc] at hdcok
  simp only at hdcok
  subst hdcok
  rcases hus : update_status_if_different env handler.request.parent.get_object_id
      handler.request.parent.get_resource_version handler.runtime_config
      handler.request.parent.generation handler.request.parent.status
      (env.finalize handler.request).status with ⟨t2, r2⟩
  rw [hus] at husok
  simp only at husok
  subst husok
  have hg := gfr_not_finalized env handler.request handler.runtime_config t1 t2 hdc
    hidx hus hfin
  have hh := handle_of_ok env handler _ hg
  have h1 : ∀ q : Event → Bool, (∀ e : Event, e.is_child_step = true → q e = false) →
      t1.countP q = 0 := by
    intro q hq
    have h := delete_children_countP_zero env handler.runtime_config
      handler.request.children q hq
    rw [hdc] at h
    exact h
  have h2 : ∀ q : Event → Bool, (∀ e : Event, e.is_status_step = true → q e = false) →
      t2.countP q = 0 := by
    intro q hq
    have h := update_status_countP_zero env handler.request.parent.get_object_id
      handler.request.parent.get_resource_version handler.runtime_config
      handler.request.parent.generation handler.request.parent.status
      (env.finalize handler.request).status q hq
    rw [hus] at h
    exact h
  refine ⟨?_, ?_, ?_, by decide⟩
  · simp [hh, List.append_assoc]
  · rw [hh]
    simp [List.countP_append, List.countP_cons, Event.is_removal_patch,
      h1 Event.is_removal_patch (fun e h => (child_step_disjoint e h).2.2.2.2.2.1),
      h2 Event.is_removal_patch (fun e h => (status_step_no e h).2.2.2.2)]
  · have hd1 : delays t1 = [] := delays_eq_nil t1
      (h1 Event.is_delay (fun e h => (child_step_disjoint e h).2.2.2.2.1))
    have hd2 : delays t2 = [] := delays_eq_nil t2
      (h2 Event.is_delay (fun e h => (status_step_no e h).2.2.2.1))
    rw [hh]
    simp only [delays] at hd1 hd2 ⊢
    simp [List.filterMap_append, List.filterMap_cons, hd1, hd2]

/-- C6 witness: a concrete pass whose handler reports not-finalized waits
exactly the not-finalized delay. -/
theorem C6_witness :
    ((env_notfin_w.finalize (handler_of_w req_marker_w).request).finalized = false) ∧
    delays (handle_finalize env_notfin_w (handler_of_w req_marker_w)) =
      [not_finalized_delay_secs] :=
  ⟨by decide, (C6_not_finalized_throttle env_notfin_w (handler_of_w req_marker_w)
    (by decide) (by decide) (by decide) (by decide)).2.2.1⟩

/-- C8: whenever the handler runs, exactly one status-reconciler call happens
and it carries the generation, resource-version and prior status of the
pass's original snapshot together with the handler's candidate status; a
status patch is issued exactly when the candidate differs from the prior
status. -/
theorem C8_status_from_snapshot (env : Env) (handler : SyncHandler)
    (hidx : (get_index_of_parent_finalizer handler.request handler.runtime_config).isSome
      = true)
    (hdcok : (delete_children env handler.runtime_config handler.request.children).2
      = Outcome.ok) :
    (handle_finalize env handler).filter Event.is_status_call =
      [Event.status_call handler.request.parent.get_object_id
        handler.request.parent.get_resource_version handler.request.parent.generation
        handler.request.parent.status (env.finalize handler.request).status] ∧
    (handle_finalize env handler).countP Event.is_status_patch =
      (if (env.finalize handler.request).status = handler.request.parent.status
       then 0 else 1) := by
  obtain ⟨rest, hsh, hrest, -, -⟩ := handle_present_decomp env handler hidx hdcok
  have ht1f : ((delete_children env handler.runtime_config
      handler.request.children).1).filter Event.is_status_call = [] :=
    delete_children_filter_nil env handler.runtime_config handler.request.children _
      (fun e h => (child_step_disjoint e h).2.1)
  have ht1c : ((delete_children env handler.runtime_config
      handler.request.children).1).countP Event.is_status_patch = 0 :=
    delete_children_countP_zero env handler.runtime_config handler.request.children _
      (fun e h => (child_step_disjoint e h).2.2.2.2.2.2)
  have husf : ((update_status_if_different env handler.request.parent.get_object_id
      handler.request.parent.get_resource_version handler.runtime_config
      handler.request.parent.generation handler.request.parent.status
      (env.finalize handler.request).status).1).filter Event.is_status_call =
      [Event.status_call handler.request.parent.get_object_id
        handler.request.parent.get_resource_version handler.request.parent.generation
        handler.request.parent.status (env.finalize handler.request).status] := by
    rw [update_status_trace]
    by_cases hif : (env.finalize handler.request).status = handler.request.parent.status <;>
      simp [hif, Event.is_status_call, List.filter_cons]
  have husp : ((update_status_if_different env handler.request.parent.get_object_id
      handler.request.parent.get_resource_version handler.runtime_config
      handler.request.parent.generation handler.request.parent.status
      (env.finalize handler.request).status).1).countP Event.is_status_patch =
      (if (env.finalize handler.request).status = handler.request.parent.status
       then 0 else 1) := by
    rw [update_status_trace]
    by_cases hif : (env.finalize handler.request).status = handler.request.parent.status <;>
      simp [hif, Event.is_status_patch, List.countP_cons]
  have hrf : rest.filter Event.is_status_call = [] :=
    List.filter_eq_nil_iff.mpr (fun e he => by simp [(hrest e he).1])
  have hrc : rest.countP Event.is_status_patch = 0 :=
    List.countP_eq_zero.mpr (fun e he => by simp [(hrest e he).2.1])
  constructor
  · rw [hsh]
    simp only [List.append_assoc, List.cons_append, List.filter_append, List.filter_cons,
      ht1f, husf, hrf]
    simp [Event.is_status_call]
  · rw [hsh]
    simp only [List.append_assoc, List.cons_append, List.countP_append, List.countP_cons,
      ht1c, husp, hrc]
    simp [Event.is_status_patch]

/-- C8 witness: a concrete pass whose handler proposes a different status
issues exactly one status patch. -/
theorem C8_witness :
    ((get_index_of_parent_finalizer (handler_of_w req_marker_w).request
      (handler_of_w req_marker_w).runtime_config).isSome = true) ∧
    (handle_finalize env_ok_w (handler_of_w req_marker_w)).countP
      Event.is_status_patch = 1 :=
  ⟨by decide, ((C8_status_from_snapshot env_ok_w (handler_of_w req_marker_w)
    (by decide) (by decide)).2).trans (by decide)⟩

/-- C10: when the marker-removal patch itself fails, the pass logs the error,
waits the same error delay as the other failure paths, and still sends the
completion message; `handle_finalize` never surfaces the error. -/
theorem C10_removal_failure_contained (env : Env) (handler : SyncHandler) (e : UpdateError)
    (hidx : (get_index_of_parent_finalizer handler.request handler.runtime_config).isSome
      = true)
    (hdcok : (delete_children env handler.runtime_config handler.request.children).2
      = Outcome.ok)
    (husok : (update_status_if_different env handler.request.parent.get_object_id
      handler.request.parent.get_resource_version handler.runtime_config
      handler.request.parent.generation handler.request.parent.status
      (env.finalize handler.request).status).2 = Outcome.ok)
    (hfin : (env.finalize handler.request).finalized = true)
    (hpf : env.patch_result handler.runtime_config.parent_type
      handler.request.parent.get_object_id
      (Patch.remove_finalizer handler.runtime_config.operator_name) = Except.error e) :
    handle_finalize env handler =
      (delete_children env handler.runtime_config handler.request.children).1 ++
        Event.handler_invoked handler.request ::
          (update_status_if_different env handler.request.parent.get_object_id
            handler.request.parent.get_resource_version handler.runtime_config
            handler.request.parent.generation handler.request.parent.status
            (env.finalize handler.request).status).1 ++
          [Event.log_finalized handler.request.parent.get_object_id,
           Event.patch_req handler.runtime_config.parent_type
             handler.request.parent.get_object_id
             (Patch.remove_finalizer handler.runtime_config.operator_name),
           Event.log_finalize_err handler.request.parent.get_object_id e,
           Event.delay error_delay_secs,
           Event.completion_sent (completion_message handler)] ∧
    completions (handle_finalize env handler) = [completion_message handler] := by
  rcases hdc : delete_children env handler.runtime_config handler.request.children
    with ⟨t1, r⟩
  rw [hdc] at hdcok
  simp only at hdcok
  subst hdcok
  rcases hus : update_status_if_different env handler.request.parent.get_object_id
      handler.request.parent.get_resource_version handler.runtime_config
      handler.request.parent.generation handler.request.parent.status
      (env.finalize handler.request).status with ⟨t2, r2⟩
  rw [hus] at husok
  simp only at husok
  subst husok
  have hrfl : remove_finalizer env handler.runtime_config handler.request.parent =
      ([Event.patch_req handler.runtime_config.parent_type
        handler.request.parent.get_object_id
        (Patch.remove_finalizer handler.runtime_config.operator_name)],
        Outcome.err e) := by
    simp [remove_finalizer, hpf]
  have hg := gfr_finalized env handler.request handler.runtime_config t1 t2 hdc
    hidx hus hfin
  rw [hrfl] at hg
  have hh := handle_of_err env handler _ e hg
  have h1 : t1.countP Event.is_completion = 0 := by
    have h := delete_children_countP_zero env handler.runtime_config
      handler.request.children Event.is_completion
      (fun e' h' => (child_step_disjoint e' h').2.2.2.1)
    rw [hdc] at h
    exact h
  have h2 : t2.countP Event.is_completion = 0 := by
    have h := update_status_countP_zero env handler.request.parent.get_object_id
      handler.request.parent.get_resource_version handler.runtime_config
      handler.request.parent.generation handler.request.parent.status
      (env.finalize handler.request).status Event.is_completion
      (fun e' h' => (status_step_no e' h').2.2.1)
    rw [hus] at h
    exact h
  constructor
  · simp [hh, List.append_assoc]
  · have hc1 : completions t1 = [] := completions_eq_nil t1 h1
    have hc2 : completions t2 = [] := completions_eq_nil t2 h2
    rw [hh]
    simp only [completions] at hc1 hc2 ⊢
    simp [List.append_assoc, List.cons_append, List.filterMap_append, List.filterMap_cons,
      hc1, hc2]

/-- C10 witness: a concrete pass whose marker-removal patch fails still sends
the completion message. -/
theorem C10_witness :
    (env_patchfail_w.patch_result (handler_of_w req_marker_w).runtime_config.parent_type
      (handler_of_w req_marker_w).request.parent.get_object_id
      (Patch.remove_finalizer (handler_of_w req_marker_w).runtime_config.operator_name) =
      Except.error UpdateError.conflict) ∧
    completions (handle_finalize env_patchfail_w (handler_of_w req_marker_w)) =
      [completion_message (handler_of_w req_marker_w)] :=
  ⟨by rfl, (C10_removal_failure_contained env_patchfail_w (handler_of_w req_marker_w)
    UpdateError.conflict (by decide) (by decide) (by decide) (by decide) (by rfl)).2⟩

/-- The condition under which the pass issues the marker-removal patch: the
marker was present at the start, child deletion succeeded (so the handler
actually ran), the handler reported `finalized = true`, and status
reconciliation succeeded. -/
def removal_condition (env : Env) (req : SyncRequest) (cfg : RuntimeConfig) : Bool :=
  (get_index_of_parent_finalizer req cfg).isSome &&
  decide ((delete_children env cfg req.children).2 = Outcome.ok) &&
  (env.finalize req).finalized &&
  decide ((update_status_if_different env req.parent.get_object_id
    req.parent.get_resource_version cfg req.parent.generation req.parent.status
    (env.finalize req).status).2 = Outcome.ok)

/-- C4: the number of marker-removal patches in a pass is one exactly when
`removal_condition` holds and zero otherwise; every such patch targets the
parent and carries exactly the operator's identity; and the modelled removal
semantics removes exactly the occurrences of that identity. -/
theorem C4_removal_exactly_when_confirmed (env : Env) (handler : SyncHandler) :
    (handle_finalize env handler).countP Event.is_removal_patch =
      (if removal_condition env handler.request handler.runtime_config then 1 else 0) ∧
    (∀ e ∈ handle_finalize env handler, e.is_removal_patch = true →
      e = Event.patch_req handler.runtime_config.parent_type
        handler.request.parent.get_object_id
        (Patch.remove_finalizer handler.runtime_config.operator_name)) ∧
    (∀ (fins : List String) (s : String),
      s ∈ apply_remove_finalizer fins handler.runtime_config.operator_name ↔
        (s ∈ fins ∧ s ≠ handler.runtime_config.operator_name)) := by
  have happly : ∀ (fins : List String) (s : String),
      s ∈ apply_remove_finalizer fins handler.runtime_config.operator_name ↔
        (s ∈ fins ∧ s ≠ handler.runtime_config.operator_name) := by
    intro fins s
    simp [apply_remove_finalizer, List.mem_filter]
  by_cases hidx : (get_index_of_parent_finalizer handler.request
      handler.runtime_config).isSome = true
  · by_cases hdcok : (delete_children env handler.runtime_config
        handler.request.children).2 = Outcome.ok
    · obtain ⟨rest, hsh, -, hcnt, hshape⟩ := handle_present_decomp env handler hidx hdcok
      have ht1c : ((delete_children env handler.runtime_config
          handler.request.children).1).countP Event.is_removal_patch = 0 :=
        delete_children_countP_zero env handler.runtime_config handler.request.children _
          (fun e h => (child_step_disjoint e h).2.2.2.2.2.1)
      have husc : ((update_status_if_different env handler.request.parent.get_object_id
          handler.request.parent.get_resource_version handler.runtime_config
          handler.request.parent.generation handler.request.parent.status
          (env.finalize handler.request).status).1).countP Event.is_removal_patch = 0 :=
        update_status_countP_zero env handler.request.parent.get_object_id
          handler.request.parent.get_resource_version handler.runtime_config
          handler.request.parent.generation handler.request.parent.status
          (env.finalize handler.request).status _
          (fun e h => (status_step_no e h).2.2.2.2)
      refine ⟨?_, ?_, happly⟩
      · rw [hsh]
        simp only [List.append_assoc, List.cons_append, List.countP_append,
          List.countP_cons, ht1c, husc, hcnt]
        simp [removal_condition, hidx, hdcok, Event.is_removal_patch, and_assoc]
      · intro e he hq
        rw [hsh] at he
        simp only [List.append_assoc, List.cons_append, List.mem_append,
          List.mem_cons] at he
        rcases he with he | he | he | he
        · have hc := delete_children_events env handler.runtime_config
            handler.request.children e he
          rw [(child_step_disjoint e hc).2.2.2.2.2.1] at hq
          cases hq
        · subst he
          simp [Event.is_removal_patch] at hq
        · have hc := update_status_events env handler.request.parent.get_object_id
            handler.request.parent.get_resource_version handler.runtime_config
            handler.request.parent.generation handler.request.parent.status
            (env.finalize handler.request).status e he
          rw [(status_step_no e hc).2.2.2.2] at hq
          cases hq
        · exact hshape e he hq
    · have hcondf : removal_condition env handler.request handler.runtime_config
          = false := by
        simp [removal_condition]
        intro h1 h2
        exact absurd h2 hdcok
      rcases hdc : delete_children env handler.runtime_config handler.request.children
        with ⟨t1, r⟩
      have ht1c : t1.countP Event.is_removal_patch = 0 := by
        have h := delete_children_countP_zero env handler.runtime_config
          handler.request.children Event.is_removal_patch
          (fun e h => (child_step_disjoint e h).2.2.2.2.2.1)
        rw [hdc] at h
        exact h
      have ht1m : ∀ e ∈ t1, e.is_removal_patch = false := by
        intro e he
        have hc : e.is_child_step = true := by
          have h := delete_children_events env handler.runtime_config
            handler.request.children e
          rw [hdc] at h
          exact h he
        exact (child_step_disjoint e hc).2.2.2.2.2.1
      cases r with
      | ok =>
        rw [hdc] at hdcok
        simp at hdcok
      | panicked =>
        have hg := gfr_of_delete_panic env handler.request handler.runtime_config t1 hdc
        have hh := handle_of_panic env handler t1 hg
        rw [hh, hcondf]
        refine ⟨by simpa using ht1c, ?_, happly⟩
        intro e he hq
        rw [ht1m e he] at hq
        cases hq
      | err e' =>
        have hg := gfr_of_delete_err env handler.request handler.runtime_config t1 e' hdc
        have hh := handle_of_err env handler t1 e' hg
        rw [hh, hcondf]
        refine ⟨?_, ?_, happly⟩
        · simp [List.countP_append, List.countP_cons, ht1c, Event.is_removal_patch]
        · intro e he hq
          simp only [List.mem_append, List.mem_cons, List.not_mem_nil, or_false] at he
          rcases he with he | rfl | rfl | rfl
          · rw [ht1m e he] at hq
            cases hq
          · simp [Event.is_removal_patch] at hq
          · simp [Event.is_removal_patch] at hq
          · simp [Event.is_removal_patch] at hq
  · have habs : get_index_of_parent_finalizer handler.request handler.runtime_config
        = none := by
      rcases h : get_index_of_parent_finalizer handler.request handler.runtime_config
        with _ | i
      · rfl
      · rw [h] at hidx
        simp at hidx
    have hcondf : removal_condition env handler.request handler.runtime_config
        = false := by
      simp [removal_condition, habs]
    obtain ⟨-, -, -, hpatch⟩ := finalize_marker_absent_core env handler habs
    have hnone : ∀ e ∈ handle_finalize env handler, e.is_removal_patch = false := by
      intro e he
      have hp : ¬ e.is_patch = true := List.countP_eq_zero.mp hpatch e he
      rcases hq : e.is_removal_patch with _ | _
      · rfl
      · exact absurd (removal_imp_patch e hq) hp
    rw [hcondf]
    refine ⟨?_, ?_, happly⟩
    · have h0 : (handle_finalize env handler).countP Event.is_removal_patch = 0 :=
        List.countP_eq_zero.mpr (fun e he => by rw [hnone e he]; simp)
      rw [h0]
      simp
    · intro e he hq
      rw [hnone e he] at hq
      cases hq

end Roperator
